import Mathlib

/-!
Verification development for the proxy-checker repository
(`proxy_checker.py`, the GUI engine, and `proxy_checker_cli.py`, the CLI
engine).  The network-facing probe is embedded shallowly: the outcome of
the one HTTP request a probe performs is an explicit `ProbeOutcome`
argument, and `check_proxy` is the pure classification the `try/except`
blocks of both engines apply to that outcome.  Latencies are rationals
(Python floats appear only as wall-clock measurements and exact integer
products such as `timeout * 1000`).
-/

namespace ProxyCk

/-- `ProxyResult` dataclass shared by both source files:
`proxy`, `protocol`, `status` (`success`/`failed`/`timeout`),
`latency` in milliseconds, `error` (default `""`). -/
structure ProxyResult where
  proxy : String
  protocol : String
  status : String
  latency : ℚ
  error : String
deriving DecidableEq, Repr

/-- The outcome of the single network request issued by `check_proxy`,
as observed by the surrounding `try/except` blocks:
either an HTTP response with a status code and a measured elapsed time
(`(time.time() - start_time) * 1000`), or one of the exception classes
the handlers distinguish.  `timeoutExc` is `requests.exceptions.Timeout`
in the GUI engine and `asyncio.TimeoutError` in the CLI engine;
`proxyError` is `requests.exceptions.ProxyError`; `otherExc` is any
other `Exception`, carrying its `str(e)` message. -/
inductive ProbeOutcome where
  | httpResponse (statusCode : Nat) (elapsed_ms : ℚ)
  | timeoutExc
  | proxyError (msg : String)
  | otherExc (msg : String)
deriving DecidableEq, Repr

/-- Decimal digit to character, for embedding Python's `str(int)` and
number formatting: code point 48 (`'0'`) plus the digit value, with a
placeholder for out-of-range arguments (never reached). -/
def digitToChar (d : ℕ) : Char :=
  if d < 10 then Char.ofNat (48 + d) else '*'

/-- Digit characters of a positive natural number, most significant
first; `fuel` bounds the recursion depth (any `fuel ≥ n` is exact). -/
def natCharsAux : ℕ → ℕ → List Char
  | 0, _ => []
  | fuel + 1, n =>
      if n = 0 then []
      else natCharsAux fuel (n / 10) ++ [digitToChar (n % 10)]

/-- Characters of the decimal representation of a natural number,
matching Python's `str(int)` / `format` of a nonnegative integer. -/
def natChars (n : ℕ) : List Char :=
  if n = 0 then ['0'] else natCharsAux n n

/-- Python `str(n)` for a natural number, as a Lean string. -/
def natStr (n : ℕ) : String := String.mk (natChars n)

/-- Python slicing `s[:n]`: the first `n` code points of `s`. -/
def pyTake (n : ℕ) (s : String) : String := String.mk (s.data.take n)

/-- GUI engine `ProxyChecker.check_proxy` (`proxy_checker.py`): the
classification its `try/except` applies to the outcome of
`requests.get(test_url, proxies=..., timeout=self.timeout)`.
* status 200 → `success`, measured latency, empty error;
* other status → `failed`, measured latency, error `"HTTP " + str(status)`;
* `requests.exceptions.Timeout` → `timeout`, latency `timeout * 1000`,
  error `"连接超时"`;
* `requests.exceptions.ProxyError` → `failed`, latency 0,
  error `"代理错误: " + str(e)[:50]`;
* any other `Exception` → `failed`, latency 0, error `str(e)[:50]`. -/
def guiCheckProxy (timeout : ℕ) (proxy protocol : String)
    (o : ProbeOutcome) : ProxyResult :=
  match o with
  | ProbeOutcome.httpResponse s e =>
      if s = 200 then
        ⟨proxy, protocol, "success", e, ""⟩
      else
        ⟨proxy, protocol, "failed", e, "HTTP " ++ natStr s⟩
  | ProbeOutcome.timeoutExc =>
      ⟨proxy, protocol, "timeout", (timeout : ℚ) * 1000, "连接超时"⟩
  | ProbeOutcome.proxyError msg =>
      ⟨proxy, protocol, "failed", 0, "代理错误: " ++ pyTake 50 msg⟩
  | ProbeOutcome.otherExc msg =>
      ⟨proxy, protocol, "failed", 0, pyTake 50 msg⟩

/-- CLI engine `ProxyCheckerCLI.check_proxy` (`proxy_checker_cli.py`).
Its SOCKS5 and HTTP/HTTPS branches classify the response identically,
so a single response case suffices.  It has only two handlers:
`asyncio.TimeoutError` → `timeout`, latency `timeout * 1000`, error
`"连接超时"`; any other `Exception` (proxy errors included) → `failed`,
latency 0, error `str(e)` with **no truncation**. -/
def cliCheckProxy (timeout : ℕ) (proxy protocol : String)
    (o : ProbeOutcome) : ProxyResult :=
  match o with
  | ProbeOutcome.httpResponse s e =>
      if s = 200 then
        ⟨proxy, protocol, "success", e, ""⟩
      else
        ⟨proxy, protocol, "failed", e, "HTTP " ++ natStr s⟩
  | ProbeOutcome.timeoutExc =>
      ⟨proxy, protocol, "timeout", (timeout : ℚ) * 1000, "连接超时"⟩
  | ProbeOutcome.proxyError msg =>
      ⟨proxy, protocol, "failed", 0, msg⟩
  | ProbeOutcome.otherExc msg =>
      ⟨proxy, protocol, "failed", 0, msg⟩

/-- The statistics dictionary both `get_statistics` methods build for a
non-empty result list. -/
structure Statistics where
  total : ℕ
  success : ℕ
  failed : ℕ
  success_rate : ℚ
  avg_latency : ℚ
  min_latency : ℚ
  max_latency : ℚ
deriving DecidableEq, Repr

/-- Python `min(gen, default=0)` over the latencies of a result list. -/
def minLatency (l : List ProxyResult) : ℚ :=
  match l with
  | [] => 0
  | r :: rs => (rs.map ProxyResult.latency).foldl min r.latency

/-- Python `max(gen, default=0)` over the latencies of a result list. -/
def maxLatency (l : List ProxyResult) : ℚ :=
  match l with
  | [] => 0
  | r :: rs => (rs.map ProxyResult.latency).foldl max r.latency

/-- `get_statistics`, identical in both source files
(`ProxyChecker.get_statistics` and `ProxyCheckerCLI.get_statistics`):
the empty-result early return (`return {}` in the GUI engine, `return
None` in the CLI engine — both a field-less sentinel, modelled `none`)
and otherwise the dictionary of totals, rate and latency extremes over
the successful results. -/
def get_statistics (results : List ProxyResult) : Option Statistics :=
  if results = [] then none
  else
    let total := results.length
    let success := results.filter (fun r => r.status = "success")
    let success_count := success.length
    let avg_latency : ℚ :=
      if success_count > 0 then
        (success.map ProxyResult.latency).sum / success_count
      else 0
    some
      { total := total
        success := success_count
        failed := total - success_count
        success_rate :=
          if total > 0 then (success_count : ℚ) / total * 100 else 0
        avg_latency := avg_latency
        min_latency := minLatency success
        max_latency := maxLatency success }

/-- Batch run of the GUI engine (`ProxyChecker.check_proxies_batch`):
one task is submitted to the `ThreadPoolExecutor` per input pair, and
the `as_completed` loop appends each finished `check_proxy` result to
`self.results`.  The embedding makes the two nondeterministic inputs
explicit: `oracle i` is the network outcome observed by task `i`, and
`order` is the completion order in which `as_completed` yields the
futures — any permutation of the task indices.  `concurrency`
(`max_workers`) only bounds parallelism and influences neither which
tasks run nor what each returns, so the result list does not depend on
it.  The CLI engine (`ProxyCheckerCLI.check_proxies_batch`) appends in
semaphore-gated completion order in exactly the same way. -/
def check_proxies_batch (timeout : ℕ) (proxies : List (String × String))
    (concurrency : ℕ) (order : List (Fin proxies.length))
    (oracle : ℕ → ProbeOutcome) : List ProxyResult :=
  order.map (fun i =>
    guiCheckProxy timeout (proxies.get i).1 (proxies.get i).2 (oracle i.val))

/-- The (endpoint, protocol) pair a result reports. -/
def resultPair (r : ProxyResult) : String × String := (r.proxy, r.protocol)

/-- GUI application state relevant to `stop_check`
(`ProxyCheckerGUI`): the `is_checking` flag and the two buttons it
toggles, together with the engine state of the running batch — the
results accumulated so far and the tasks submitted to the executor
that have not yet run. -/
structure GuiState where
  is_checking : Bool
  start_enabled : Bool
  stop_enabled : Bool
  timeout : ℕ
  pending : List ((String × String) × ProbeOutcome)
  results : List ProxyResult
deriving Repr

/-- `ProxyCheckerGUI.stop_check`: sets `is_checking = False` and
toggles the two buttons.  It touches nothing else — in particular
neither the executor's queued tasks nor the accumulated results. -/
def stop_check (s : GuiState) : GuiState :=
  { s with is_checking := false, start_enabled := true,
           stop_enabled := false }

/-- One scheduling step of the executor inside
`check_proxies_batch`: the next queued task starts, runs
`check_proxy`, and its result is appended.  The loop in
`check_proxies_batch` consults no flag, so this step is taken whether
or not `is_checking` holds. -/
def batch_step (s : GuiState) : GuiState :=
  match s.pending with
  | [] => s
  | (pair, o) :: rest =>
      { s with pending := rest,
               results := s.results ++ [guiCheckProxy s.timeout pair.1 pair.2 o] }

/-- `n` scheduling steps of the executor in sequence. -/
def run_steps : ℕ → GuiState → GuiState
  | 0, s => s
  | fuel + 1, s => run_steps fuel (batch_step s)

/-- Running the batch to completion: scheduling steps are taken until
the executor's queue is drained (each step consumes one queued task,
so as many steps as there are queued tasks). -/
def run_to_completion (s : GuiState) : GuiState :=
  run_steps s.pending.length s

/-- Split a character list at every occurrence of `c`, the semantics of
Python's `str.split(c)`: `splitOnChar c []` is `[[]]`, and each
occurrence of `c` starts a new chunk. -/
def splitOnChar (c : Char) : List Char → List (List Char)
  | [] => [[]]
  | x :: xs =>
      match splitOnChar c xs with
      | [] => [[]]
      | h :: t => if x = c then [] :: h :: t else (x :: h) :: t

/-- Python `str.strip()` whitespace test restricted to the ASCII
whitespace characters (space, tab, newline, carriage return, vertical
tab, form feed). -/
def isPyWS (c : Char) : Bool :=
  c = ' ' || c = '\t' || c = '\n' || c = '\r' ||
  c.toNat = 11 || c.toNat = 12

/-- Python `str.strip()`: drop leading and trailing whitespace. -/
def pyStrip (l : List Char) : List Char :=
  ((l.dropWhile isPyWS).reverse.dropWhile isPyWS).reverse

/-- Membership of Python's character class `[\d.]` (digits and the
dot; the sources use it for the `ip` part of `ip:port`). -/
def isDigitOrDot (c : Char) : Bool := c.isDigit || c = '.'

/-- Captures of the regex tail `([^@]+@)?(.+)` against `r` under
Python's leftmost-greedy backtracking, returning `(group2, group3)`
with an absent group 2 as `[]`.  Since `[^@]+` cannot cross an `@`,
the only way the optional group can match is to consume `r` up to and
including its first `@` (needing at least one earlier character), and
`(.+)` then needs at least one following non-newline character, taking
the maximal run of them (`.` does not match a newline, `[^@]` does).
If that fails, the optional group is skipped and `(.+)` must match
from the start.  Returns `none` when the whole tail fails. -/
def matchGroup23 (r : List Char) : Option (List Char × List Char) :=
  let a := r.takeWhile (fun c => c ≠ '@')
  let g3 := (r.drop (a.length + 1)).takeWhile (fun c => c ≠ '\n')
  if a ≠ [] ∧ a.length < r.length ∧ g3 ≠ [] then
    some (a ++ ['@'], g3)
  else
    let g := r.takeWhile (fun c => c ≠ '\n')
    if g ≠ [] then some ([], g) else none

/-- The first branch of both `parse_proxies` functions:
`re.match(r'(http|https|socks5)://([^@]+@)?(.+)', line)` followed by
`proxies.append((auth + proxy, protocol))` where `auth`/`proxy` are
groups 2 and 3.  The alternation is resolved as Python resolves it:
`http` is tried first, and a line starting `https://` fails `http`
at the `:` versus `s` position, so the three scheme prefixes are
mutually exclusive; when a scheme prefix is present and the group
tail fails, no other alternative can match, so the whole regex
fails.  Returns `(auth ++ proxy, protocol)` character lists. -/
def matchSchemeLine (line : List Char) : Option (List Char × List Char) :=
  if List.isPrefixOf (("http://").data) line then
    (matchGroup23 (line.drop 7)).map (fun g => (g.1 ++ g.2, ("http").data))
  else if List.isPrefixOf (("https://").data) line then
    (matchGroup23 (line.drop 8)).map (fun g => (g.1 ++ g.2, ("https").data))
  else if List.isPrefixOf (("socks5://").data) line then
    (matchGroup23 (line.drop 9)).map (fun g => (g.1 ++ g.2, ("socks5").data))
  else none

/-- Truthiness of `re.match(r'[^@]+@[\d.]+:\d+', line)` (the second
branch of `parse_proxies`), a prefix match: at least one non-`@`
character up to the line's first `@`, then a maximal nonempty run of
`[\d.]`, which must be followed by `:` and then a digit; anything may
trail.  Because `[^@]+` cannot cross `@` and `[\d.]` excludes `:`,
backtracking adds no further matches. -/
def matchCredIpPort (line : List Char) : Bool :=
  let a := line.takeWhile (fun c => c ≠ '@')
  if a = [] ∨ ¬ a.length < line.length then false
  else
    let u := line.drop (a.length + 1)
    let b := u.takeWhile isDigitOrDot
    match u.drop b.length with
    | ':' :: d :: _ => decide (b ≠ []) && d.isDigit
    | _ => false

/-- Truthiness of `re.match(r'[\d.]+:\d+', line)` (the third branch),
a prefix match: a maximal nonempty run of `[\d.]`, then `:`, then a
digit; anything may trail. -/
def matchIpPort (line : List Char) : Bool :=
  let b := line.takeWhile isDigitOrDot
  match line.drop b.length with
  | ':' :: d :: _ => decide (b ≠ []) && d.isDigit
  | _ => false

/-- The per-line body of the `for line in lines` loop of both
`parse_proxies` functions (after the blank/comment `continue`): the
three regex branches in priority order. -/
def parseLine (line : List Char) : Option (String × String) :=
  match matchSchemeLine line with
  | some (ep, proto) => some (String.mk ep, String.mk proto)
  | none =>
      if matchCredIpPort line then some (String.mk line, "http")
      else if matchIpPort line then some (String.mk line, "http")
      else none

/-- Blank/comment filtering plus classification for one raw line:
`line = line.strip()`; `if not line or line.startswith('#'): continue`. -/
def processLine (l : List Char) : Option (String × String) :=
  let line := pyStrip l
  if line = [] then none
  else if List.isPrefixOf (("#").data) line then none
  else parseLine line

/-- `parse_proxies(text)`, identical in `proxy_checker_cli.py`
(module level) and `proxy_checker.py`
(`ProxyCheckerGUI.parse_proxies`): `text.strip().split('\n')`, then
each stripped non-blank non-comment line is classified by the three
regexes in priority order and matching lines contribute one
(endpoint, protocol) pair in input order. -/
def parse_proxies (text : String) : List (String × String) :=
  (splitOnChar '\n' (pyStrip text.data)).filterMap processLine

/-- Round to the nearest integer, ties to even — the rounding Python's
fixed-point float formatting applies (here on exact rationals). -/
def roundHalfEven (x : ℚ) : ℤ :=
  if Int.fract x = 1 / 2 then
    (if ⌊x⌋ % 2 = 0 then ⌊x⌋ else ⌊x⌋ + 1)
  else round x

/-- Two decimal digits with a leading zero, for the fractional part of
`"%.2f"` (argument below 100). -/
def pad2 (k : ℕ) : List Char := [digitToChar (k / 10), digitToChar (k % 10)]

/-- Python `f"{q:.2f}"` on a rational: the value rounded to two
decimal places (ties to even), rendered with exactly two fractional
digits, a `-` sign in front for negative inputs. -/
def format2f (q : ℚ) : List Char :=
  let a : ℕ := (roundHalfEven (|q| * 100)).toNat
  let body := natChars (a / 100) ++ '.' :: pad2 (a % 100)
  if q < 0 then '-' :: body else body

/-- Inverse of `digitToChar` on decimal digit characters: the code
point minus 48, defined only on ASCII digits. -/
def charToDigit (c : Char) : Option ℕ :=
  if c.isDigit then some (c.toNat - 48) else none

/-- Accumulator pass of decimal-string parsing. -/
def charsToNatAux (acc : ℕ) : List Char → Option ℕ
  | [] => some acc
  | c :: cs => (charToDigit c).bind (fun d => charsToNatAux (acc * 10 + d) cs)

/-- Parse a nonempty all-digit character list as a natural number. -/
def charsToNat (l : List Char) : Option ℕ :=
  if l = [] then none else charsToNatAux 0 l

/-- Parse a plain unsigned decimal, either `digits` or
`digits.digits`, as a rational. -/
def parseDecToNonneg (l : List Char) : Option ℚ :=
  match splitOnChar '.' l with
  | [ip] => (charsToNat ip).map (fun i => (i : ℚ))
  | [ip, fp] =>
      (charsToNat ip).bind (fun i =>
        (charsToNat fp).map (fun f =>
          (i : ℚ) + (f : ℚ) / ((10 : ℚ) ^ fp.length)))
  | _ => none

/-- Parse a decimal literal with an optional leading `-`. -/
def parseDec (l : List Char) : Option ℚ :=
  match l with
  | '-' :: rest => (parseDecToNonneg rest).map (fun q => -q)
  | _ => parseDecToNonneg l

/-- The header line `_export_csv` writes. -/
def csvHeader : List Char := ("代理,协议,状态,延迟(ms),错误信息").data

/-- One data row of `_export_csv`
(`f"{r.proxy},{r.protocol},{r.status},{r.latency:.2f},{r.error}"`):
the five fields joined by commas, with no quoting or escaping, the
latency formatted to two decimal places. -/
def csvRow (r : ProxyResult) : List Char :=
  r.proxy.data ++ ',' :: (r.protocol.data ++ ',' :: (r.status.data ++
    ',' :: (format2f r.latency ++ ',' :: r.error.data)))

/-- `ProxyCheckerCLI._export_csv`: the header line followed by one
line per result, each line terminated by a newline. -/
def export_csv (results : List ProxyResult) : String :=
  String.mk (csvHeader ++ '\n' ::
    results.foldr (fun r acc => csvRow r ++ '\n' :: acc) [])

/-- Reading one CSV data row back: split on commas into exactly five
fields, the fourth parsed as a decimal latency. -/
def parseCsvRow (l : List Char) : Option ProxyResult :=
  match splitOnChar ',' l with
  | [p, pr, st, lat, er] =>
      (parseDec lat).map (fun q =>
        ⟨String.mk p, String.mk pr, String.mk st, q, String.mk er⟩)
  | _ => none

/-- Parsing an exported CSV document back: split into lines, drop the
header line, ignore blank lines (the final newline leaves one), and
parse every remaining row. -/
def parseCsv (s : String) : Option (List ProxyResult) :=
  match splitOnChar '\n' s.data with
  | [] => none
  | _ :: rows => (rows.filter (fun l => decide (l ≠ []))).mapM parseCsvRow

/-- Fields that survive the CSV format unharmed: no comma or newline
in any string field, and a nonnegative latency that is exactly
representable with two decimal places (denominator dividing 100). -/
def cleanFields (r : ProxyResult) : Prop :=
  (∀ c ∈ r.proxy.data, c ≠ ',' ∧ c ≠ '\n') ∧
  (∀ c ∈ r.protocol.data, c ≠ ',' ∧ c ≠ '\n') ∧
  (∀ c ∈ r.status.data, c ≠ ',' ∧ c ≠ '\n') ∧
  (∀ c ∈ r.error.data, c ≠ ',' ∧ c ≠ '\n') ∧
  0 ≤ r.latency ∧ (r.latency * 100).den = 1

/-- A concrete ten-result collection with seven successes, used to
instantiate statistics statements. -/
def sampleResults : List ProxyResult :=
  [⟨"a", "http", "success", 10, ""⟩, ⟨"b", "http", "success", 20, ""⟩,
   ⟨"c", "http", "success", 30, ""⟩, ⟨"d", "http", "success", 40, ""⟩,
   ⟨"e", "http", "success", 50, ""⟩, ⟨"f", "http", "success", 60, ""⟩,
   ⟨"g", "http", "success", 70, ""⟩, ⟨"h", "http", "failed", 0, "HTTP 404"⟩,
   ⟨"i", "http", "timeout", 2000, "连接超时"⟩,
   ⟨"j", "http", "failed", 0, "x"⟩]

/-! ## Theorems -/

/-- C4: a probe whose operation does not complete within the
configured timeout of `T` seconds is classified, by both engines'
`check_proxy`, as `status = "timeout"` with `latency = T * 1000`
milliseconds (the configured bound, not an elapsed measurement) and
the fixed timeout message `"连接超时"` ("connection timed out"),
independent of the probed endpoint. -/
theorem check_proxy_timeout_classification (timeout : ℕ)
    (proxy protocol : String) :
    guiCheckProxy timeout proxy protocol ProbeOutcome.timeoutExc =
      ⟨proxy, protocol, "timeout", (timeout : ℚ) * 1000, "连接超时"⟩ ∧
    cliCheckProxy timeout proxy protocol ProbeOutcome.timeoutExc =
      ⟨proxy, protocol, "timeout", (timeout : ℚ) * 1000, "连接超时"⟩ :=
  ⟨rfl, rfl⟩

/-- C5: a probe that receives an HTTP response is classified, by both
engines' `check_proxy`, as `success` with the measured elapsed latency
and empty error when the status code is 200, and as `failed` with the
measured elapsed latency and error exactly `"HTTP " ++ str(status)`
for any other status code. -/
theorem check_proxy_http_status_classification (timeout : ℕ)
    (proxy protocol : String) (s : ℕ) (e : ℚ) :
    (s = 200 →
      guiCheckProxy timeout proxy protocol (ProbeOutcome.httpResponse s e) =
        ⟨proxy, protocol, "success", e, ""⟩ ∧
      cliCheckProxy timeout proxy protocol (ProbeOutcome.httpResponse s e) =
        ⟨proxy, protocol, "success", e, ""⟩) ∧
    (s ≠ 200 →
      guiCheckProxy timeout proxy protocol (ProbeOutcome.httpResponse s e) =
        ⟨proxy, protocol, "failed", e, "HTTP " ++ natStr s⟩ ∧
      cliCheckProxy timeout proxy protocol (ProbeOutcome.httpResponse s e) =
        ⟨proxy, protocol, "failed", e, "HTTP " ++ natStr s⟩) := by
  constructor <;> intro h <;>
    simp [guiCheckProxy, cliCheckProxy, h]

/-- Witness for C5 at concrete inputs: a 200 response and a 404
response. -/
theorem check_proxy_http_status_classification_witness :
    ((200 = 200) ∧
      guiCheckProxy 10 ("1.2.3.4:80") ("http")
          (ProbeOutcome.httpResponse 200 5) =
        ⟨"1.2.3.4:80", "http", "success", 5, ""⟩) ∧
    ((404 ≠ 200) ∧
      cliCheckProxy 10 ("1.2.3.4:80") ("http")
          (ProbeOutcome.httpResponse 404 5) =
        ⟨"1.2.3.4:80", "http", "failed", 5, "HTTP 404"⟩) := by
  refine ⟨⟨rfl, ?_⟩, ⟨by decide, ?_⟩⟩
  · exact ((check_proxy_http_status_classification 10 ("1.2.3.4:80")
      ("http") 200 5).1 rfl).1
  · exact ((check_proxy_http_status_classification 10 ("1.2.3.4:80")
      ("http") 404 5).2 (by decide)).2

/-- C2 counterexample: on an empty results collection both engines'
`get_statistics` return the empty sentinel (`{}` in the GUI engine,
`None` in the CLI engine, modelled `none`) — not a `Statistics` value
with zeroed fields as the claim states. -/
theorem get_statistics_empty_counterexample :
    get_statistics [] = none ∧
    get_statistics ([] : List ProxyResult) ≠ some ⟨0, 0, 0, 0, 0, 0, 0⟩ :=
  ⟨rfl, by simp [get_statistics]⟩

/-- C2 amended: `get_statistics` (identical in both engines) returns
the empty sentinel (`{}` / `None`) exactly on the empty results
collection — and, being a total function of the collection, raises no
division error there. -/
theorem get_statistics_empty_sentinel (results : List ProxyResult) :
    get_statistics results = none ↔ results = [] := by
  by_cases h : results = [] <;> simp [get_statistics, h]

/-- C3 counterexample: failures other than timeout do **not** always
yield `error_detail` equal to the message truncated to at most 50
characters.  The CLI engine stores the full 60-character message
untruncated, and the GUI engine prefixes `"代理错误: "` to the
truncation of a `ProxyError` message, producing 56 characters. -/
theorem check_proxy_error_truncation_counterexample :
    (cliCheckProxy 10 ("1.2.3.4:80") ("http")
        (ProbeOutcome.otherExc (String.mk (List.replicate 60 'a')))).status
      = "failed" ∧
    (cliCheckProxy 10 ("1.2.3.4:80") ("http")
        (ProbeOutcome.otherExc (String.mk (List.replicate 60 'a')))).latency
      = 0 ∧
    (cliCheckProxy 10 ("1.2.3.4:80") ("http")
        (ProbeOutcome.otherExc (String.mk (List.replicate 60 'a')))).error
      ≠ pyTake 50 (String.mk (List.replicate 60 'a')) ∧
    (cliCheckProxy 10 ("1.2.3.4:80") ("http")
        (ProbeOutcome.otherExc (String.mk (List.replicate 60 'a')))).error.length
      = 60 ∧
    (guiCheckProxy 10 ("1.2.3.4:80") ("http")
        (ProbeOutcome.proxyError (String.mk (List.replicate 50 'a')))).error.length
      = 56 := by
  refine ⟨rfl, rfl, by decide, by decide, by decide⟩

/-- C3 amended: any failure other than a timeout is caught by
`check_proxy` and turned into a result (never propagated), with
`status = "failed"` and `latency = 0`; the `error_detail` is, in the
GUI engine, the underlying message truncated to its first 50
characters — prefixed by `"代理错误: "` for a `ProxyError` — and, in
the CLI engine, the full untruncated message. -/
theorem check_proxy_nontimeout_failure_classification (timeout : ℕ)
    (proxy protocol msg : String) :
    guiCheckProxy timeout proxy protocol (ProbeOutcome.proxyError msg) =
      ⟨proxy, protocol, "failed", 0, "代理错误: " ++ pyTake 50 msg⟩ ∧
    guiCheckProxy timeout proxy protocol (ProbeOutcome.otherExc msg) =
      ⟨proxy, protocol, "failed", 0, pyTake 50 msg⟩ ∧
    cliCheckProxy timeout proxy protocol (ProbeOutcome.proxyError msg) =
      ⟨proxy, protocol, "failed", 0, msg⟩ ∧
    cliCheckProxy timeout proxy protocol (ProbeOutcome.otherExc msg) =
      ⟨proxy, protocol, "failed", 0, msg⟩ :=
  ⟨rfl, rfl, rfl, rfl⟩

/-- `min?` of the mapped latencies agrees with the `foldl`-shaped
Python `min(..., default=0)` on a non-empty list. -/
theorem minLatency_min? (l : List ProxyResult) (h : l ≠ []) :
    (l.map ProxyResult.latency).min? = some (minLatency l) := by
  cases l with
  | nil => exact absurd rfl h
  | cons r rs => simp [minLatency, List.min?]

/-- `max?` of the mapped latencies agrees with the `foldl`-shaped
Python `max(..., default=0)` on a non-empty list. -/
theorem maxLatency_max? (l : List ProxyResult) (h : l ≠ []) :
    (l.map ProxyResult.latency).max? = some (maxLatency l) := by
  cases l with
  | nil => exact absurd rfl h
  | cons r rs => simp [maxLatency, List.max?]

/-- C6: on a non-empty results collection `get_statistics` (identical
in both engines) returns a record whose `success_rate` is
`success_count / total * 100`, whose `failed` count is
`total - success_count` — equivalently the number of results whose
status is not `"success"`, so timeouts count as failed — and whose
average/minimum/maximum latency are computed only over the successful
results, all three being 0 when there is no successful result, with
no error. -/
theorem get_statistics_nonempty_formulas (results : List ProxyResult)
    (h : results ≠ []) :
    ∃ s, get_statistics results = some s ∧
      s.total = results.length ∧
      s.success = results.countP (fun r => decide (r.status = "success")) ∧
      s.failed = results.countP (fun r => decide (r.status ≠ "success")) ∧
      s.failed = s.total - s.success ∧
      s.success_rate = (s.success : ℚ) / (s.total : ℚ) * 100 ∧
      (s.success = 0 →
        s.avg_latency = 0 ∧ s.min_latency = 0 ∧ s.max_latency = 0) ∧
      (s.success ≠ 0 →
        s.avg_latency =
          ((results.filter (fun r => decide (r.status = "success"))).map
            ProxyResult.latency).sum / (s.success : ℚ) ∧
        ((results.filter (fun r => decide (r.status = "success"))).map
            ProxyResult.latency).min? = some s.min_latency ∧
        ((results.filter (fun r => decide (r.status = "success"))).map
            ProxyResult.latency).max? = some s.max_latency) := by
  have htot : 0 < results.length := List.length_pos.mpr h
  have hcount :
      results.countP (fun r => decide (r.status = "success")) =
        (results.filter (fun r => decide (r.status = "success"))).length :=
    List.countP_eq_length_filter _ results
  refine
    ⟨⟨results.length,
      (results.filter (fun r => decide (r.status = "success"))).length,
      results.length -
        (results.filter (fun r => decide (r.status = "success"))).length,
      ((results.filter (fun r => decide (r.status = "success"))).length : ℚ) /
        (results.length : ℚ) * 100,
      if 0 < (results.filter (fun r => decide (r.status = "success"))).length
      then ((results.filter (fun r => decide (r.status = "success"))).map
          ProxyResult.latency).sum /
        ((results.filter (fun r => decide (r.status = "success"))).length : ℚ)
      else 0,
      minLatency (results.filter (fun r => decide (r.status = "success"))),
      maxLatency (results.filter (fun r => decide (r.status = "success")))⟩,
      ?_, rfl, hcount.symm, ?_, rfl, ?_, ?_, ?_⟩
  · simp only [get_statistics, if_neg h, gt_iff_lt, htot, if_true]
  · show results.length -
        (results.filter (fun r => decide (r.status = "success"))).length =
      results.countP (fun r => decide (r.status ≠ "success"))
    have hsplit :=
      @List.length_eq_countP_add_countP ProxyResult
        (fun r => decide (r.status = "success")) results
    have hnot :
        results.countP
            (fun r : ProxyResult => ¬ decide (r.status = "success")) =
          results.countP
            (fun r : ProxyResult => decide (r.status ≠ "success")) := by
      apply List.countP_congr
      intro r _
      simp
    rw [hcount, hnot] at hsplit
    omega
  · rfl
  · intro hz
    have hnil : results.filter (fun r => decide (r.status = "success")) = [] :=
      List.length_eq_zero.mp hz
    refine ⟨?_, ?_, ?_⟩
    · simp [hnil]
    · simp [hnil, minLatency]
    · simp [hnil, maxLatency]
  · intro hz
    have hpos :
        0 < (results.filter (fun r => decide (r.status = "success"))).length :=
      Nat.pos_of_ne_zero hz
    have hnil :
        results.filter (fun r => decide (r.status = "success")) ≠ [] := by
      intro hcon
      rw [hcon] at hpos
      exact absurd hpos (by simp)
    refine ⟨?_, ?_, ?_⟩
    · simp only [if_pos hpos]
    · exact minLatency_min? _ hnil
    · exact maxLatency_max? _ hnil

/-- Witness for C6: ten concrete results, seven of them successful;
the theorem applies and in particular forces `success_rate = 70`. -/
theorem get_statistics_nonempty_formulas_witness :
    sampleResults ≠ [] ∧
    (∃ s, get_statistics sampleResults = some s ∧ s.success_rate = 70) := by
  obtain ⟨s, hs, htotal, hsucc, -, -, hrate, -, -⟩ :=
    get_statistics_nonempty_formulas sampleResults (by decide)
  refine ⟨by decide, s, hs, ?_⟩
  have hc :
      sampleResults.countP (fun r => decide (r.status = "success")) = 7 := by
    decide
  have hl : sampleResults.length = 10 := by decide
  rw [hrate, hsucc, hc, htotal, hl]
  norm_num

/-- Every branch of `check_proxy` reports back exactly the (endpoint,
protocol) pair it was given. -/
theorem resultPair_guiCheckProxy (timeout : ℕ) (proxy protocol : String)
    (o : ProbeOutcome) :
    resultPair (guiCheckProxy timeout proxy protocol o) = (proxy, protocol) := by
  cases o with
  | httpResponse s e =>
      by_cases hs : s = 200 <;> simp [guiCheckProxy, resultPair, hs]
  | timeoutExc => rfl
  | proxyError msg => rfl
  | otherExc msg => rfl

/-- C1: for every input list of (endpoint, protocol) pairs, any
concurrency ceiling at least 1, any per-task network outcomes and any
completion order (a permutation of the submitted task indices), the
batch run returns exactly one `ProxyResult` per input pair: the result
count equals the input count and the multiset of reported (endpoint,
protocol) pairs is exactly the input list — no duplicates, no missing
entries, independent of completion order. -/
theorem check_proxies_batch_exactly_one_result_per_pair (timeout : ℕ)
    (proxies : List (String × String)) (concurrency : ℕ)
    (order : List (Fin proxies.length)) (oracle : ℕ → ProbeOutcome)
    (hc : 1 ≤ concurrency)
    (hperm : order.Perm (List.finRange proxies.length)) :
    (check_proxies_batch timeout proxies concurrency order oracle).length =
      proxies.length ∧
    ((check_proxies_batch timeout proxies concurrency order oracle).map
        resultPair).Perm proxies := by
  constructor
  · simp [check_proxies_batch, hperm.length_eq]
  · have hmap :
        (check_proxies_batch timeout proxies concurrency order oracle).map
          resultPair = order.map (fun i => proxies.get i) := by
      simp only [check_proxies_batch, List.map_map]
      apply List.map_congr_left
      intro i _
      simp [Function.comp, resultPair_guiCheckProxy]
    rw [hmap]
    have hp := hperm.map (fun i : Fin proxies.length => proxies.get i)
    rwa [List.finRange_map_get] at hp

/-- Witness for C1 at a concrete batch: two pairs, concurrency 1, the
completion order reversed relative to submission. -/
theorem check_proxies_batch_exactly_one_result_per_pair_witness :
    1 ≤ 1 ∧
    ([⟨1, by decide⟩, ⟨0, by decide⟩] :
        List (Fin ([("1.2.3.4:80", "http"), ("u:p@5.6.7.8:1080", "socks5")] :
          List (String × String)).length)).Perm
      (List.finRange
        ([("1.2.3.4:80", "http"), ("u:p@5.6.7.8:1080", "socks5")] :
          List (String × String)).length) ∧
    ((check_proxies_batch 10
          [("1.2.3.4:80", "http"), ("u:p@5.6.7.8:1080", "socks5")] 1
          [⟨1, by decide⟩, ⟨0, by decide⟩]
          (fun n => if n = 0 then ProbeOutcome.timeoutExc
            else ProbeOutcome.httpResponse 200 5)).length = 2 ∧
      ((check_proxies_batch 10
          [("1.2.3.4:80", "http"), ("u:p@5.6.7.8:1080", "socks5")] 1
          [⟨1, by decide⟩, ⟨0, by decide⟩]
          (fun n => if n = 0 then ProbeOutcome.timeoutExc
            else ProbeOutcome.httpResponse 200 5)).map resultPair).Perm
        [("1.2.3.4:80", "http"), ("u:p@5.6.7.8:1080", "socks5")]) := by
  refine ⟨le_refl 1, by decide, ?_⟩
  exact check_proxies_batch_exactly_one_result_per_pair 10
    [("1.2.3.4:80", "http"), ("u:p@5.6.7.8:1080", "socks5")] 1
    [⟨1, by decide⟩, ⟨0, by decide⟩]
    (fun n => if n = 0 then ProbeOutcome.timeoutExc
      else ProbeOutcome.httpResponse 200 5)
    (le_refl 1) (by decide)

/-- `stop_check` commutes with one executor scheduling step: the step
function never consults the `is_checking` flag. -/
theorem batch_step_stop_check_comm (s : GuiState) :
    batch_step (stop_check s) = stop_check (batch_step s) := by
  cases hp : s.pending with
  | nil => simp [batch_step, stop_check, hp]
  | cons t rest => simp [batch_step, stop_check, hp]

/-- Draining the executor queue: after as many steps as there are
queued tasks, every queued task has run `check_proxy` and appended its
result, in queue order, and the UI flags are untouched. -/
theorem run_steps_drains (p : List ((String × String) × ProbeOutcome)) :
    ∀ s : GuiState, s.pending = p →
      run_steps p.length s =
        { is_checking := s.is_checking, start_enabled := s.start_enabled,
          stop_enabled := s.stop_enabled, timeout := s.timeout,
          pending := [],
          results := s.results ++
            p.map (fun t => guiCheckProxy s.timeout t.1.1 t.1.2 t.2) } := by
  induction p with
  | nil =>
      intro s hs
      cases s
      simp_all [run_steps]
  | cons t rest ih =>
      intro s hs
      have hstep : batch_step s =
          { s with pending := rest,
                   results := s.results ++
                     [guiCheckProxy s.timeout t.1.1 t.1.2 t.2] } := by
        simp [batch_step, hs]
      show run_steps (rest.length + 1) s = _
      rw [run_steps, hstep, ih _ rfl]
      simp

/-- C7 counterexample: after the external stop signal
(`stop_check`), the next executor step still starts the queued probe
and appends its result — a new probe is scheduled despite the stop.
`stop_check` has set `is_checking = false`, yet the one pending task
runs to completion. -/
theorem stop_check_counterexample :
    (stop_check ⟨true, false, true, 10,
        [(("1.2.3.4:80", "http"), ProbeOutcome.httpResponse 200 5)],
        []⟩).is_checking = false ∧
    (batch_step (stop_check ⟨true, false, true, 10,
        [(("1.2.3.4:80", "http"), ProbeOutcome.httpResponse 200 5)],
        []⟩)).pending = [] ∧
    (batch_step (stop_check ⟨true, false, true, 10,
        [(("1.2.3.4:80", "http"), ProbeOutcome.httpResponse 200 5)],
        []⟩)).results =
      [⟨"1.2.3.4:80", "http", "success", 5, ""⟩] :=
  ⟨rfl, rfl, rfl⟩

/-- C7 amended: `stop_check` only resets the `is_checking` flag and
the two buttons; it retains all already-completed results and leaves
the executor's queue untouched, and it does **not** prevent queued
probes from being started — the batch still runs every queued probe to
completion and appends its result, exactly as it would have without
the stop signal. -/
theorem stop_check_preserves_queue_and_results (s : GuiState) :
    (stop_check s).is_checking = false ∧
    (stop_check s).results = s.results ∧
    (stop_check s).pending = s.pending ∧
    (run_to_completion (stop_check s)).results =
      s.results ++
        s.pending.map (fun t => guiCheckProxy s.timeout t.1.1 t.1.2 t.2) ∧
    (run_to_completion (stop_check s)).results =
      (run_to_completion s).results := by
  have h1 := run_steps_drains s.pending (stop_check s) rfl
  have h2 := run_steps_drains s.pending s rfl
  refine ⟨rfl, rfl, rfl, ?_, ?_⟩
  · show (run_steps (stop_check s).pending.length (stop_check s)).results = _
    rw [show (stop_check s).pending = s.pending from rfl, h1]
    rfl
  · show (run_steps (stop_check s).pending.length (stop_check s)).results =
      (run_steps s.pending.length s).results
    rw [show (stop_check s).pending = s.pending from rfl, h1, h2]
    rfl

/-- `splitOnChar` never returns the empty list of chunks. -/
theorem splitOnChar_ne_nil (c : Char) (l : List Char) :
    splitOnChar c l ≠ [] := by
  induction l with
  | nil => simp [splitOnChar]
  | cons x xs ih =>
      simp only [splitOnChar]
      cases h : splitOnChar c xs with
      | nil => simp
      | cons h' t => by_cases hx : x = c <;> simp [hx]

/-- Splitting a separator-free list yields the single chunk. -/
theorem splitOnChar_sep_free (c : Char) (l : List Char)
    (h : ∀ x ∈ l, x ≠ c) : splitOnChar c l = [l] := by
  induction l with
  | nil => rfl
  | cons x xs ih =>
      have hx : x ≠ c := h x (by simp)
      have hxs : splitOnChar c xs = [xs] :=
        ih (fun y hy => h y (by simp [hy]))
      simp [splitOnChar, hxs, hx]

/-- Splitting at the first separator: a separator-free chunk followed
by the separator peels off. -/
theorem splitOnChar_append_cons (c : Char) (a b : List Char)
    (ha : ∀ x ∈ a, x ≠ c) :
    splitOnChar c (a ++ c :: b) = a :: splitOnChar c b := by
  induction a with
  | nil =>
      simp only [List.nil_append, splitOnChar]
      cases h : splitOnChar c b with
      | nil => exact absurd h (splitOnChar_ne_nil c b)
      | cons h' t => simp
  | cons x a' ih =>
      have hx : x ≠ c := ha x (by simp)
      have ha' : splitOnChar c (a' ++ c :: b) = a' :: splitOnChar c b :=
        ih (fun y hy => ha y (by simp [hy]))
      simp [splitOnChar, ha', hx]

/-- `takeWhile` over a satisfying block stops exactly at the first
failing element. -/
theorem takeWhile_middle (p : Char → Bool) (a : List Char) (y : Char)
    (b : List Char) (ha : ∀ x ∈ a, p x = true) (hy : p y = false) :
    (a ++ y :: b).takeWhile p = a := by
  rw [List.takeWhile_append_of_pos ha, List.takeWhile_cons_of_neg (by simp [hy])]
  simp

/-- Dropping past a block and the following element. -/
theorem drop_middle (a : List Char) (y : Char) (b : List Char) :
    (a ++ y :: b).drop (a.length + 1) = b := by
  rw [show a ++ y :: b = (a ++ [y]) ++ b by simp,
    List.drop_left' (by simp)]

/-- The regex tail `([^@]+@)?(.+)` always captures, on a nonempty
newline-free input, two groups that concatenate back to the whole
input. -/
theorem matchGroup23_splits (r : List Char) (hr : r ≠ [])
    (hnl : ∀ c ∈ r, c ≠ '\n') :
    ∃ a g, matchGroup23 r = some (a, g) ∧ a ++ g = r := by
  by_cases hc : (r.takeWhile (fun c => c ≠ '@') ≠ [] ∧
      (r.takeWhile (fun c => c ≠ '@')).length < r.length ∧
      (r.drop ((r.takeWhile (fun c => c ≠ '@')).length + 1)).takeWhile
        (fun c => c ≠ '\n') ≠ [])
  · refine ⟨r.takeWhile (fun c => c ≠ '@') ++ ['@'],
      (r.drop ((r.takeWhile (fun c => c ≠ '@')).length + 1)).takeWhile
        (fun c => c ≠ '\n'), ?_, ?_⟩
    · simp only [matchGroup23]
      rw [if_pos hc]
    · obtain ⟨h1, h2, h3⟩ := hc
      have hsplit :
          r.takeWhile (fun c => c ≠ '@') ++ r.dropWhile (fun c => c ≠ '@') = r :=
        List.takeWhile_append_dropWhile _ _
      have hdw : r.dropWhile (fun c => c ≠ '@') ≠ [] := by
        intro hcon
        rw [hcon, List.append_nil] at hsplit
        rw [hsplit] at h2
        exact absurd h2 (lt_irrefl _)
      obtain ⟨d, D, hD⟩ := List.exists_cons_of_ne_nil hdw
      have hd : d = '@' := by
        have hhead := List.head_dropWhile_not (fun c => decide (c ≠ '@')) r
          (by rw [hD]; simp)
        simp only [hD, List.head_cons] at hhead
        simpa using hhead
      rw [hD, hd] at hsplit
      have hdrop : r.drop ((r.takeWhile (fun c => c ≠ '@')).length + 1) = D := by
        have hdm := drop_middle (r.takeWhile (fun c => c ≠ '@')) '@' D
        rw [hsplit] at hdm
        exact hdm
      rw [hdrop]
      have hDnl : ∀ c ∈ D, c ≠ '\n' := by
        intro c hcD
        apply hnl
        rw [← hsplit]
        simp [hcD]
      rw [show List.takeWhile (fun c => decide (c ≠ '\n')) D = D from
        List.takeWhile_eq_self_iff.mpr (by simpa using hDnl)]
      rw [List.append_assoc]
      exact hsplit
  · refine ⟨[], r, ?_, by simp⟩
    simp only [matchGroup23]
    rw [if_neg hc]
    rw [show List.takeWhile (fun c => decide (c ≠ '\n')) r = r from
      List.takeWhile_eq_self_iff.mpr (by simpa using hnl)]
    rw [if_pos hr]

/-- A prefix check fails as soon as the first characters differ. -/
theorem isPrefixOf_cons_ne (x y : Char) (xs ys : List Char) (h : y ≠ x) :
    List.isPrefixOf (x :: xs) (y :: ys) = false := by
  simp [List.isPrefixOf]
  intro hcon
  exact absurd hcon.symm h

/-- The first `parse_proxies` regex on an `http://` line: protocol
`http`, and groups 2 and 3 concatenate to everything after the
scheme. -/
theorem matchSchemeLine_http (rest : List Char) (hr : rest ≠ [])
    (hnl : ∀ c ∈ rest, c ≠ '\n') :
    matchSchemeLine (("http://").data ++ rest) =
      some (rest, ("http").data) := by
  obtain ⟨a, g, hm, hag⟩ := matchGroup23_splits rest hr hnl
  have hpre : List.isPrefixOf (("http://").data) ((("http://").data) ++ rest) := by
    simp
  rw [matchSchemeLine, if_pos hpre, List.drop_left' (by rfl), hm]
  simp [hag]

/-- The first `parse_proxies` regex on an `https://` line.  The
alternation first tries `http`, which fails at the fifth character
(`:` against `s`), and then `https` matches. -/
theorem matchSchemeLine_https (rest : List Char) (hr : rest ≠ [])
    (hnl : ∀ c ∈ rest, c ≠ '\n') :
    matchSchemeLine (("https://").data ++ rest) =
      some (rest, ("https").data) := by
  obtain ⟨a, g, hm, hag⟩ := matchGroup23_splits rest hr hnl
  have hpre1 : List.isPrefixOf (("http://").data) ((("https://").data) ++ rest)
      = false := by
    show List.isPrefixOf ['h', 't', 't', 'p', ':', '/', '/']
      ('h' :: 't' :: 't' :: 'p' :: 's' :: ':' :: '/' :: '/' :: rest) = false
    simp [List.isPrefixOf]
  have hpre2 : List.isPrefixOf (("https://").data) ((("https://").data) ++ rest) := by
    simp
  rw [matchSchemeLine, if_neg (by simp [hpre1]), if_pos hpre2,
    List.drop_left' (by rfl), hm]
  simp [hag]

/-- The first `parse_proxies` regex on a `socks5://` line. -/
theorem matchSchemeLine_socks5 (rest : List Char) (hr : rest ≠ [])
    (hnl : ∀ c ∈ rest, c ≠ '\n') :
    matchSchemeLine (("socks5://").data ++ rest) =
      some (rest, ("socks5").data) := by
  obtain ⟨a, g, hm, hag⟩ := matchGroup23_splits rest hr hnl
  have hpre1 : List.isPrefixOf (("http://").data) ((("socks5://").data) ++ rest)
      = false := by
    show List.isPrefixOf ('h' :: ("ttp://").data)
      ('s' :: 'o' :: 'c' :: 'k' :: 's' :: '5' :: ':' :: '/' :: '/' :: rest) = false
    exact isPrefixOf_cons_ne _ _ _ _ (by decide)
  have hpre2 : List.isPrefixOf (("https://").data) ((("socks5://").data) ++ rest)
      = false := by
    show List.isPrefixOf ('h' :: ("ttps://").data)
      ('s' :: 'o' :: 'c' :: 'k' :: 's' :: '5' :: ':' :: '/' :: '/' :: rest) = false
    exact isPrefixOf_cons_ne _ _ _ _ (by decide)
  have hpre3 : List.isPrefixOf (("socks5://").data) ((("socks5://").data) ++ rest) := by
    simp
  rw [matchSchemeLine, if_neg (by simp [hpre1]), if_neg (by simp [hpre2]),
    if_pos hpre3, List.drop_left' (by rfl), hm]
  simp [hag]

/-- `parse_proxies` on a single already-stripped newline-free line
reduces to the per-line classifier. -/
theorem parse_proxies_single (line : List Char)
    (hnl : ∀ c ∈ line, c ≠ '\n') (hstrip : pyStrip line = line) :
    parse_proxies (String.mk line) = (processLine line).toList := by
  show (splitOnChar '\n' (pyStrip (String.mk line).data)).filterMap
    processLine = _
  rw [show (String.mk line).data = line from rfl, hstrip,
    splitOnChar_sep_free '\n' line hnl]
  cases h : processLine line <;> simp [h]

/-- When no scheme prefix is present, the first regex fails. -/
theorem matchSchemeLine_none (line : List Char)
    (h1 : List.isPrefixOf (("http://").data) line = false)
    (h2 : List.isPrefixOf (("https://").data) line = false)
    (h3 : List.isPrefixOf (("socks5://").data) line = false) :
    matchSchemeLine line = none := by
  rw [matchSchemeLine, if_neg (by simp [h1]), if_neg (by simp [h2]),
    if_neg (by simp [h3])]

/-- The second regex `[^@]+@[\d.]+:\d+` accepts a line of shape
`cred@ip:port…`: nonempty `@`-free credentials, then the first `@`,
then a nonempty digits-and-dots run, a colon and a leading digit. -/
theorem matchCredIpPort_true (cred ip : List Char) (d : Char)
    (rest : List Char) (hcred : cred ≠ []) (hat : '@' ∉ cred)
    (hip : ip ≠ []) (hipc : ∀ c ∈ ip, isDigitOrDot c = true)
    (hd : d.isDigit = true) :
    matchCredIpPort (cred ++ '@' :: (ip ++ ':' :: d :: rest)) = true := by
  have htw :
      (cred ++ '@' :: (ip ++ ':' :: d :: rest)).takeWhile
        (fun c => c ≠ '@') = cred := by
    apply takeWhile_middle
    · intro x hx
      simp only [decide_eq_true_eq]
      intro hcon
      subst hcon
      exact hat hx
    · simp
  have hlen :
      cred.length < (cred ++ '@' :: (ip ++ ':' :: d :: rest)).length := by
    simp
  have hdrop :
      (cred ++ '@' :: (ip ++ ':' :: d :: rest)).drop (cred.length + 1) =
        ip ++ ':' :: d :: rest :=
    drop_middle cred '@' _
  have htw2 :
      (ip ++ ':' :: d :: rest).takeWhile isDigitOrDot = ip :=
    takeWhile_middle _ ip ':' _ hipc (by rfl)
  simp only [matchCredIpPort, htw, hdrop, htw2]
  rw [if_neg (by simp [hcred, hlen]), List.drop_left]
  simp [hip, hd]

/-- A line without `@` cannot match the second regex: its `[^@]+@`
part finds no `@` to consume. -/
theorem matchCredIpPort_false_of_no_at (line : List Char)
    (h : '@' ∉ line) : matchCredIpPort line = false := by
  have htw : line.takeWhile (fun c => c ≠ '@') = line := by
    apply List.takeWhile_eq_self_iff.mpr
    intro x hx
    simp only [decide_eq_true_eq]
    intro hcon
    subst hcon
    exact h hx
  simp only [matchCredIpPort, htw]
  rw [if_pos (Or.inr (lt_irrefl _))]

/-- The third regex `[\d.]+:\d+` accepts a line of shape `ip:d…`:
a nonempty digits-and-dots run, a colon and a leading digit, anything
trailing. -/
theorem matchIpPort_true (ip : List Char) (d : Char) (rest : List Char)
    (hip : ip ≠ []) (hipc : ∀ c ∈ ip, isDigitOrDot c = true)
    (hd : d.isDigit = true) :
    matchIpPort (ip ++ ':' :: d :: rest) = true := by
  have htw : (ip ++ ':' :: d :: rest).takeWhile isDigitOrDot = ip :=
    takeWhile_middle _ ip ':' _ hipc (by rfl)
  simp only [matchIpPort, htw, List.drop_left]
  simp [hip, hd]

/-- C8: `parse_proxies` classifies each (stripped, newline-free) line
by matching priority order: a `protocol://[user:pass@]host:port` line
with protocol in `{http, https, socks5}` yields the pair
`([user:pass@]host:port, protocol)`; a scheme-less `user:pass@ip:port`
line and a bare `ip:port` line yield the whole line with protocol
`"http"`; blank lines, lines starting with `#`, and lines matching
none of the three regexes yield no pair. -/
theorem parse_proxies_classification (line : List Char)
    (hnl : ∀ c ∈ line, c ≠ '\n') (hstrip : pyStrip line = line) :
    (∀ (proto : String) (rest : List Char),
      (proto = "http" ∨ proto = "https" ∨ proto = "socks5") →
      line = proto.data ++ ("://").data ++ rest → rest ≠ [] →
      parse_proxies (String.mk line) = [(String.mk rest, proto)]) ∧
    (∀ cred ip : List Char, ∀ d : Char, ∀ port' : List Char,
      line = cred ++ '@' :: (ip ++ ':' :: d :: port') →
      cred ≠ [] → '@' ∉ cred → ip ≠ [] →
      (∀ c ∈ ip, isDigitOrDot c = true) → d.isDigit = true →
      List.isPrefixOf (("http://").data) line = false →
      List.isPrefixOf (("https://").data) line = false →
      List.isPrefixOf (("socks5://").data) line = false →
      List.isPrefixOf (("#").data) line = false →
      parse_proxies (String.mk line) = [(String.mk line, "http")]) ∧
    (∀ ip : List Char, ∀ d : Char, ∀ port' : List Char,
      line = ip ++ ':' :: d :: port' →
      ip ≠ [] → (∀ c ∈ ip, isDigitOrDot c = true) → d.isDigit = true →
      (∀ c ∈ port', c.isDigit = true) →
      parse_proxies (String.mk line) = [(String.mk line, "http")]) ∧
    (pyStrip line = [] → parse_proxies (String.mk line) = []) ∧
    (List.isPrefixOf (("#").data) line = true →
      parse_proxies (String.mk line) = []) ∧
    (matchSchemeLine line = none → matchCredIpPort line = false →
      matchIpPort line = false → parse_proxies (String.mk line) = []) := by
  refine ⟨?_, ?_, ?_, ?_, ?_, ?_⟩
  · -- scheme-prefixed lines
    intro proto rest hproto hline hrest
    have hrnl : ∀ c ∈ rest, c ≠ '\n' := by
      intro c hc
      exact hnl c (by rw [hline]; simp [hc])
    have hne : line ≠ [] := by
      rw [hline]
      simp
    rw [parse_proxies_single line hnl hstrip]
    rcases hproto with h | h | h <;> subst h
    · have hhash : List.isPrefixOf (("#").data) line = false := by
        rw [hline]
        exact isPrefixOf_cons_ne _ _ _ _ (by decide)
      have hmatch : matchSchemeLine line = some (rest, ("http").data) := by
        rw [show line = ("http://").data ++ rest from hline]
        exact matchSchemeLine_http rest hrest hrnl
      simp [processLine, parseLine, hstrip, hne, hhash, hmatch]
    · have hhash : List.isPrefixOf (("#").data) line = false := by
        rw [hline]
        exact isPrefixOf_cons_ne _ _ _ _ (by decide)
      have hmatch : matchSchemeLine line = some (rest, ("https").data) := by
        rw [show line = ("https://").data ++ rest from hline]
        exact matchSchemeLine_https rest hrest hrnl
      simp [processLine, parseLine, hstrip, hne, hhash, hmatch]
    · have hhash : List.isPrefixOf (("#").data) line = false := by
        rw [hline]
        exact isPrefixOf_cons_ne _ _ _ _ (by decide)
      have hmatch : matchSchemeLine line = some (rest, ("socks5").data) := by
        rw [show line = ("socks5://").data ++ rest from hline]
        exact matchSchemeLine_socks5 rest hrest hrnl
      simp [processLine, parseLine, hstrip, hne, hhash, hmatch]
  · -- scheme-less credential lines
    intro cred ip d port' hline hcred hat hip hipc hd hp1 hp2 hp3 hhash
    have hne : line ≠ [] := by
      rw [hline]
      simp
    have hmc : matchCredIpPort line = true := by
      rw [hline]
      exact matchCredIpPort_true cred ip d port' hcred hat hip hipc hd
    have hms : matchSchemeLine line = none :=
      matchSchemeLine_none line hp1 hp2 hp3
    rw [parse_proxies_single line hnl hstrip]
    simp [processLine, parseLine, hstrip, hne, hhash, hms, hmc]
  · -- bare ip:port lines
    intro ip d port' hline hip hipc hd hportc
    obtain ⟨c0, ip', hip0⟩ := List.exists_cons_of_ne_nil hip
    have hc0 : isDigitOrDot c0 = true := hipc c0 (by rw [hip0]; simp)
    have hline0 : line = c0 :: (ip' ++ ':' :: d :: port') := by
      rw [hline, hip0]
      rfl
    have hcne : ∀ x : Char, isDigitOrDot x = false → c0 ≠ x := by
      intro x hx hcon
      rw [hcon, hx] at hc0
      exact absurd hc0 (by decide)
    have hp1 : List.isPrefixOf (("http://").data) line = false := by
      rw [hline0]
      exact isPrefixOf_cons_ne _ _ _ _ (hcne 'h' (by decide))
    have hp2 : List.isPrefixOf (("https://").data) line = false := by
      rw [hline0]
      exact isPrefixOf_cons_ne _ _ _ _ (hcne 'h' (by decide))
    have hp3 : List.isPrefixOf (("socks5://").data) line = false := by
      rw [hline0]
      exact isPrefixOf_cons_ne _ _ _ _ (hcne 's' (by decide))
    have hhash : List.isPrefixOf (("#").data) line = false := by
      rw [hline0]
      exact isPrefixOf_cons_ne _ _ _ _ (hcne '#' (by decide))
    have hne : line ≠ [] := by
      rw [hline0]
      simp
    have hat : '@' ∉ line := by
      rw [hline]
      intro hmem
      rcases List.mem_append.mp hmem with hm | hm
      · have := hipc _ hm
        exact absurd this (by decide)
      · rcases hm with _ | ⟨_, hm⟩
        rcases hm with _ | ⟨_, hm⟩
        · exact absurd hd (by decide)
        · exact absurd (hportc _ hm) (by decide)
    have hmc : matchCredIpPort line = false :=
      matchCredIpPort_false_of_no_at line hat
    have hmi : matchIpPort line = true := by
      rw [hline]
      exact matchIpPort_true ip d port' hip hipc hd
    have hms : matchSchemeLine line = none :=
      matchSchemeLine_none line hp1 hp2 hp3
    rw [parse_proxies_single line hnl hstrip]
    simp [processLine, parseLine, hstrip, hne, hhash, hms, hmc, hmi]
  · -- blank lines
    intro hblank
    have hline : line = [] := by rw [← hstrip, hblank]
    subst hline
    rfl
  · -- comment lines
    intro hh
    have hne : line ≠ [] := by
      intro hcon
      rw [hcon] at hh
      exact absurd hh (by decide)
    rw [parse_proxies_single line hnl hstrip]
    simp [processLine, hstrip, hne, hh]
  · -- lines matching none of the regexes
    intro hms hmc hmi
    rw [parse_proxies_single line hnl hstrip]
    by_cases hne : line = []
    · simp [processLine, hne, pyStrip]
    · by_cases hh : List.isPrefixOf (("#").data) line
      · simp [processLine, hstrip, hne, hh]
      · simp [processLine, parseLine, hstrip, hne, hh, hms, hmc, hmi]

/-- Witness for C8 at the spec's three examples:
`socks5://user:pw@10.0.0.1:1080`, `10.0.0.1:8080` and `# note`. -/
theorem parse_proxies_classification_witness :
    parse_proxies ("socks5://user:pw@10.0.0.1:1080") =
      [("user:pw@10.0.0.1:1080", "socks5")] ∧
    parse_proxies ("10.0.0.1:8080") = [("10.0.0.1:8080", "http")] ∧
    parse_proxies ("# note") = [] := by
  refine ⟨?_, ?_, ?_⟩
  · have h := (parse_proxies_classification
      (("socks5://user:pw@10.0.0.1:1080").data) (by decide) (by decide)).1
      "socks5" (("user:pw@10.0.0.1:1080").data)
      (by right; right; rfl) (by decide) (by decide)
    exact h
  · have h := (parse_proxies_classification
      (("10.0.0.1:8080").data) (by decide) (by decide)).2.2.1
      (("10.0.0.1").data) '8' (("080").data) (by decide) (by decide)
      (by decide) (by decide) (by decide)
    exact h
  · have h := (parse_proxies_classification
      (("# note").data) (by decide) (by decide)).2.2.2.2.1 (by decide)
    exact h

/-- C10: acceptance in `parse_proxies` is prefix-based, not
whole-line: a line beginning with `ip:port` and continuing with
arbitrary (newline-free) trailing characters is not dropped — it
yields the **entire line**, trailing characters included, as the
endpoint, with protocol `"http"`. -/
theorem parse_proxies_prefix_acceptance (ip port tail : List Char)
    (hip : ip ≠ []) (hipc : ∀ c ∈ ip, isDigitOrDot c = true)
    (hport : port ≠ []) (hportc : ∀ c ∈ port, c.isDigit = true)
    (hnl : ∀ c ∈ ip ++ ':' :: (port ++ tail), c ≠ '\n')
    (hstrip : pyStrip (ip ++ ':' :: (port ++ tail)) =
      ip ++ ':' :: (port ++ tail)) :
    parse_proxies (String.mk (ip ++ ':' :: (port ++ tail))) =
      [(String.mk (ip ++ ':' :: (port ++ tail)), "http")] := by
  obtain ⟨d, port', rfl⟩ := List.exists_cons_of_ne_nil hport
  have hd : d.isDigit = true := hportc d (by simp)
  simp only [List.cons_append] at hnl hstrip
  show parse_proxies (String.mk (ip ++ ':' :: d :: (port' ++ tail))) =
    [(String.mk (ip ++ ':' :: d :: (port' ++ tail)), "http")]
  obtain ⟨c0, ip', hip0⟩ := List.exists_cons_of_ne_nil hip
  have hc0 : isDigitOrDot c0 = true := hipc c0 (by rw [hip0]; simp)
  have hcne : ∀ x : Char, isDigitOrDot x = false → c0 ≠ x := by
    intro x hx hcon
    rw [hcon, hx] at hc0
    exact absurd hc0 (by decide)
  have hline0 : ip ++ ':' :: d :: (port' ++ tail) =
      c0 :: (ip' ++ ':' :: d :: (port' ++ tail)) := by
    rw [hip0]
    rfl
  have hp1 :
      List.isPrefixOf (("http://").data)
        (ip ++ ':' :: d :: (port' ++ tail)) = false := by
    rw [hline0]
    exact isPrefixOf_cons_ne _ _ _ _ (hcne 'h' (by decide))
  have hp2 :
      List.isPrefixOf (("https://").data)
        (ip ++ ':' :: d :: (port' ++ tail)) = false := by
    rw [hline0]
    exact isPrefixOf_cons_ne _ _ _ _ (hcne 'h' (by decide))
  have hp3 :
      List.isPrefixOf (("socks5://").data)
        (ip ++ ':' :: d :: (port' ++ tail)) = false := by
    rw [hline0]
    exact isPrefixOf_cons_ne _ _ _ _ (hcne 's' (by decide))
  have hhash :
      List.isPrefixOf (("#").data)
        (ip ++ ':' :: d :: (port' ++ tail)) = false := by
    rw [hline0]
    exact isPrefixOf_cons_ne _ _ _ _ (hcne '#' (by decide))
  have hne : ip ++ ':' :: d :: (port' ++ tail) ≠ [] := by
    rw [hline0]
    simp
  have hms : matchSchemeLine (ip ++ ':' :: d :: (port' ++ tail)) = none :=
    matchSchemeLine_none _ hp1 hp2 hp3
  rw [parse_proxies_single _ hnl hstrip]
  cases hmc : matchCredIpPort (ip ++ ':' :: d :: (port' ++ tail)) with
  | true =>
      simp [processLine, parseLine, hstrip, hne, hhash, hms, hmc]
  | false =>
      have hmi : matchIpPort (ip ++ ':' :: d :: (port' ++ tail)) = true :=
        matchIpPort_true ip d (port' ++ tail) hip hipc hd
      simp [processLine, parseLine, hstrip, hne, hhash, hms, hmc, hmi]

/-- Witness for C10: `10.0.0.1:8080 trailing!` is accepted whole. -/
theorem parse_proxies_prefix_acceptance_witness :
    parse_proxies ("10.0.0.1:8080 trailing!") =
      [("10.0.0.1:8080 trailing!", "http")] := by
  have h := parse_proxies_prefix_acceptance (("10.0.0.1").data)
    (("8080").data) ((" trailing!").data) (by decide) (by decide)
    (by decide) (by decide) (by decide) (by decide)
  exact h

/-- `charToDigit` inverts `digitToChar` on actual digits. -/
theorem charToDigit_digitToChar (d : ℕ) (h : d < 10) :
    charToDigit (digitToChar d) = some d := by
  interval_cases d <;> rfl

/-- A produced digit character is never a separator, newline, dot or
minus sign. -/
theorem digitToChar_sep_free (d : ℕ) :
    digitToChar d ≠ ',' ∧ digitToChar d ≠ '\n' ∧
      digitToChar d ≠ '.' ∧ digitToChar d ≠ '-' := by
  rw [digitToChar]
  by_cases h : d < 10
  · rw [if_pos h]
    interval_cases d <;> decide
  · rw [if_neg h]
    decide

/-- Decimal parsing distributes over concatenation. -/
theorem charsToNatAux_append (l1 l2 : List Char) :
    ∀ acc, charsToNatAux acc (l1 ++ l2) =
      (charsToNatAux acc l1).bind (fun a => charsToNatAux a l2) := by
  induction l1 with
  | nil => intro acc; rfl
  | cons c cs ih =>
      intro acc
      show (charToDigit c).bind
          (fun d => charsToNatAux (acc * 10 + d) (cs ++ l2)) =
        ((charToDigit c).bind
          (fun d => charsToNatAux (acc * 10 + d) cs)).bind
          (fun a => charsToNatAux a l2)
      cases hc : charToDigit c with
      | none => rfl
      | some d =>
          show charsToNatAux (acc * 10 + d) (cs ++ l2) =
            (charsToNatAux (acc * 10 + d) cs).bind (fun a => charsToNatAux a l2)
          exact ih (acc * 10 + d)

/-- `natCharsAux` with argument 0 is empty at every fuel. -/
theorem natCharsAux_zero : ∀ fuel, natCharsAux fuel 0 = [] := by
  intro fuel
  cases fuel with
  | zero => rfl
  | succ f => simp [natCharsAux]

/-- Parsing the digit characters of a positive number (with adequate
fuel) recovers the number, shifted into any accumulator. -/
theorem charsToNatAux_natCharsAux (fuel : ℕ) :
    ∀ n acc, n ≤ fuel → n ≠ 0 →
      charsToNatAux acc (natCharsAux fuel n) =
        some (acc * 10 ^ (natCharsAux fuel n).length + n) := by
  induction fuel with
  | zero => intro n acc hle hne; omega
  | succ f ih =>
      intro n acc hle hne
      rw [natCharsAux, if_neg hne]
      by_cases h10 : n / 10 = 0
      · have hlt : n < 10 := by omega
        rw [h10, natCharsAux_zero, List.nil_append]
        show (charToDigit (digitToChar (n % 10))).bind _ = _
        rw [charToDigit_digitToChar (n % 10) (Nat.mod_lt _ (by norm_num))]
        show some (acc * 10 + n % 10) = _
        have : n % 10 = n := Nat.mod_eq_of_lt hlt
        simp [this]
      · have hle' : n / 10 ≤ f := by omega
        rw [charsToNatAux_append]
        rw [ih (n / 10) acc hle' h10]
        show charsToNatAux (acc * 10 ^ (natCharsAux f (n / 10)).length + n / 10)
          [digitToChar (n % 10)] = _
        show (charToDigit (digitToChar (n % 10))).bind _ = _
        rw [charToDigit_digitToChar (n % 10) (Nat.mod_lt _ (by norm_num))]
        show some ((acc * 10 ^ (natCharsAux f (n / 10)).length + n / 10) * 10
          + n % 10) = _
        have hlen : (natCharsAux f (n / 10) ++ [digitToChar (n % 10)]).length =
            (natCharsAux f (n / 10)).length + 1 := by simp
        rw [hlen]
        congr 1
        have hgen : ∀ P : ℕ, (acc * P + n / 10) * 10 + n % 10 =
            acc * (P * 10) + (n / 10 * 10 + n % 10) := by
          intro P
          ring
        rw [pow_succ, hgen (10 ^ (natCharsAux f (n / 10)).length),
          show n / 10 * 10 + n % 10 = n by omega]

/-- `natCharsAux` of a positive number is nonempty. -/
theorem natCharsAux_ne_nil (fuel n : ℕ) (hne : n ≠ 0) (hle : n ≤ fuel) :
    natCharsAux fuel n ≠ [] := by
  cases fuel with
  | zero => omega
  | succ f =>
      rw [natCharsAux, if_neg hne]
      exact List.append_ne_nil_of_right_ne_nil _ (by simp)

/-- Parsing the decimal representation of any natural number recovers
it: the inverse direction of Python's `str`/`int` pair. -/
theorem charsToNat_natChars (n : ℕ) : charsToNat (natChars n) = some n := by
  by_cases hn : n = 0
  · subst hn
    rfl
  · rw [natChars, if_neg hn]
    rw [charsToNat, if_neg (natCharsAux_ne_nil n n hn (le_refl n))]
    rw [charsToNatAux_natCharsAux n n 0 (le_refl n) hn]
    simp

/-- Parsing a two-digit zero-padded block recovers the value. -/
theorem charsToNat_pad2 (k : ℕ) (h : k < 100) :
    charsToNat (pad2 k) = some k := by
  rw [charsToNat, if_neg (by simp [pad2])]
  show (charToDigit (digitToChar (k / 10))).bind _ = _
  rw [charToDigit_digitToChar (k / 10) (by omega)]
  show (charToDigit (digitToChar (k % 10))).bind _ = _
  rw [charToDigit_digitToChar (k % 10) (Nat.mod_lt _ (by norm_num))]
  show some ((0 * 10 + k / 10) * 10 + k % 10) = some k
  congr 1
  omega

/-- Members of `natCharsAux` come from `digitToChar`. -/
theorem natCharsAux_mem (fuel : ℕ) :
    ∀ n c, c ∈ natCharsAux fuel n → ∃ d, c = digitToChar d := by
  induction fuel with
  | zero => intro n c hc; exact absurd hc (by simp [natCharsAux])
  | succ f ih =>
      intro n c hc
      rw [natCharsAux] at hc
      by_cases hn : n = 0
      · rw [if_pos hn] at hc
        exact absurd hc (by simp)
      · rw [if_neg hn] at hc
        rcases List.mem_append.mp hc with hm | hm
        · exact ih (n / 10) c hm
        · exact ⟨n % 10, by simpa using hm⟩

/-- Characters of `natChars` are never separators, newlines, dots or
minus signs. -/
theorem natChars_sep_free (n : ℕ) (c : Char) (h : c ∈ natChars n) :
    c ≠ ',' ∧ c ≠ '\n' ∧ c ≠ '.' ∧ c ≠ '-' := by
  rw [natChars] at h
  by_cases hn : n = 0
  · rw [if_pos hn] at h
    simp at h
    subst h
    decide
  · rw [if_neg hn] at h
    obtain ⟨d, rfl⟩ := natCharsAux_mem n n c h
    exact digitToChar_sep_free d

/-- Characters of `pad2` likewise. -/
theorem pad2_sep_free (k : ℕ) (c : Char) (h : c ∈ pad2 k) :
    c ≠ ',' ∧ c ≠ '\n' ∧ c ≠ '.' ∧ c ≠ '-' := by
  rw [pad2] at h
  simp at h
  rcases h with rfl | rfl <;> exact digitToChar_sep_free _

/-- Characters of a formatted latency are never commas or newlines,
so the CSV row structure survives the latency field. -/
theorem format2f_sep_free (q : ℚ) (c : Char) (h : c ∈ format2f q) :
    c ≠ ',' ∧ c ≠ '\n' := by
  rw [format2f] at h
  by_cases hq : q < 0
  · rw [if_pos hq] at h
    rcases List.mem_cons.mp h with rfl | h'
    · decide
    · rcases List.mem_append.mp h' with hm | hm
      · have := natChars_sep_free _ _ hm
        exact ⟨this.1, this.2.1⟩
      · rcases List.mem_cons.mp hm with rfl | hm'
        · decide
        · have := pad2_sep_free _ _ hm'
          exact ⟨this.1, this.2.1⟩
  · rw [if_neg hq] at h
    rcases List.mem_append.mp h with hm | hm
    · have := natChars_sep_free _ _ hm
      exact ⟨this.1, this.2.1⟩
    · rcases List.mem_cons.mp hm with rfl | hm'
      · decide
      · have := pad2_sep_free _ _ hm'
        exact ⟨this.1, this.2.1⟩

/-- `roundHalfEven` is the identity on integers. -/
theorem roundHalfEven_intCast (m : ℤ) :
    roundHalfEven ((m : ℤ) : ℚ) = m := by
  rw [roundHalfEven, if_neg, round_intCast]
  rw [Int.fract_intCast]
  norm_num

/-- Parsing an unsigned two-decimal rendering recovers the exact
value. -/
theorem parseDecToNonneg_block (a b : ℕ) (hb : b < 100) :
    parseDecToNonneg (natChars a ++ '.' :: pad2 b) =
      some ((a : ℚ) + (b : ℚ) / 100) := by
  have hsplit : splitOnChar '.' (natChars a ++ '.' :: pad2 b) =
      [natChars a, pad2 b] := by
    rw [splitOnChar_append_cons '.' _ _
      (fun x hx => (natChars_sep_free a x hx).2.2.1)]
    rw [splitOnChar_sep_free '.' _
      (fun x hx => (pad2_sep_free b x hx).2.2.1)]
  simp only [parseDecToNonneg, hsplit]
  rw [charsToNat_natChars, charsToNat_pad2 b hb]
  show some ((a : ℚ) + (b : ℚ) / (10 : ℚ) ^ (pad2 b).length) = _
  norm_num [pad2]

/-- A decimal not starting with a minus sign parses unsigned. -/
theorem parseDec_cons_ne (c : Char) (t : List Char) (h : c ≠ '-') :
    parseDec (c :: t) = parseDecToNonneg (c :: t) := by
  unfold parseDec
  split
  · rename_i heq
    rw [List.cons.injEq] at heq
    exact absurd heq.1 h
  · rfl

/-- Parsing back the two-decimal formatting of a nonnegative exact
two-decimal rational recovers it exactly. -/
theorem parseDec_format2f (q : ℚ) (h0 : 0 ≤ q)
    (hden : (q * 100).den = 1) : parseDec (format2f q) = some q := by
  have hint : ((q * 100).num : ℚ) = q * 100 := by
    conv_rhs => rw [← Rat.num_div_den (q * 100)]
    rw [hden]
    simp
  have hnum0 : 0 ≤ (q * 100).num := by
    apply Rat.num_nonneg.mpr
    positivity
  have hRHE : roundHalfEven (q * 100) = (q * 100).num := by
    conv_lhs => rw [← hint]
    exact roundHalfEven_intCast _
  have hcast : (((q * 100).num.toNat : ℕ) : ℚ) = q * 100 := by
    rw [show (((q * 100).num.toNat : ℕ) : ℚ) = (((q * 100).num.toNat : ℤ) : ℚ)
        from by push_cast; ring,
      Int.toNat_of_nonneg hnum0, hint]
  have hfmt : format2f q =
      natChars ((q * 100).num.toNat / 100) ++ '.' ::
        pad2 ((q * 100).num.toNat % 100) := by
    simp only [format2f, abs_of_nonneg h0, hRHE, if_neg (not_lt.mpr h0)]
  rw [hfmt]
  cases hnc : natChars ((q * 100).num.toNat / 100) with
  | nil =>
      exfalso
      have : '0' ∈ natChars ((q * 100).num.toNat / 100) ∨
          natChars ((q * 100).num.toNat / 100) ≠ [] := by
        right
        rw [natChars]
        by_cases hz : (q * 100).num.toNat / 100 = 0
        · rw [if_pos hz]; simp
        · rw [if_neg hz]
          exact natCharsAux_ne_nil _ _ hz (le_refl _)
      rcases this with hmm | hne
      · rw [hnc] at hmm; exact absurd hmm (by simp)
      · exact hne hnc
  | cons c t =>
      have hcne : c ≠ '-' := by
        have := natChars_sep_free ((q * 100).num.toNat / 100) c
          (by rw [hnc]; simp)
        exact this.2.2.2
      rw [show (c :: t) ++ '.' :: pad2 ((q * 100).num.toNat % 100) =
        c :: (t ++ '.' :: pad2 ((q * 100).num.toNat % 100)) from rfl]
      rw [parseDec_cons_ne c _ hcne]
      rw [show c :: (t ++ '.' :: pad2 ((q * 100).num.toNat % 100)) =
        (c :: t) ++ '.' :: pad2 ((q * 100).num.toNat % 100) from rfl]
      rw [← hnc]
      rw [parseDecToNonneg_block _ _ (Nat.mod_lt _ (by norm_num))]
      congr 1
      have hq : q = (((q * 100).num.toNat : ℕ) : ℚ) / 100 := by
        rw [hcast]
        field_simp
      conv_rhs => rw [hq]
      rw [show ((q * 100).num.toNat : ℚ) =
        (((q * 100).num.toNat / 100 * 100 + (q * 100).num.toNat % 100 : ℕ) : ℚ)
        from by rw [show (q * 100).num.toNat / 100 * 100 +
          (q * 100).num.toNat % 100 = (q * 100).num.toNat by omega]]
      push_cast
      ring

/-- Splitting a clean CSV row on commas recovers the five fields. -/
theorem splitOnChar_csvRow (r : ProxyResult) (h : cleanFields r) :
    splitOnChar ',' (csvRow r) =
      [r.proxy.data, r.protocol.data, r.status.data,
        format2f r.latency, r.error.data] := by
  obtain ⟨h1, h2, h3, h4, -, -⟩ := h
  rw [csvRow]
  rw [splitOnChar_append_cons ',' _ _ (fun x hx => (h1 x hx).1)]
  rw [splitOnChar_append_cons ',' _ _ (fun x hx => (h2 x hx).1)]
  rw [splitOnChar_append_cons ',' _ _ (fun x hx => (h3 x hx).1)]
  rw [splitOnChar_append_cons ',' _ _
    (fun x hx => (format2f_sep_free r.latency x hx).1)]
  rw [splitOnChar_sep_free ',' _ (fun x hx => (h4 x hx).1)]

/-- Parsing a clean CSV row back yields the original result. -/
theorem parseCsvRow_csvRow (r : ProxyResult) (h : cleanFields r) :
    parseCsvRow (csvRow r) = some r := by
  simp only [parseCsvRow, splitOnChar_csvRow r h]
  rw [parseDec_format2f r.latency h.2.2.2.2.1 h.2.2.2.2.2]
  rfl

/-- A CSV row is never an empty line. -/
theorem csvRow_ne_nil (r : ProxyResult) : csvRow r ≠ [] := by
  rw [csvRow]
  exact List.append_ne_nil_of_right_ne_nil _ (by simp)

/-- A clean CSV row contains no newline. -/
theorem csvRow_no_newline (r : ProxyResult) (h : cleanFields r) :
    ∀ c ∈ csvRow r, c ≠ '\n' := by
  obtain ⟨h1, h2, h3, h4, -, -⟩ := h
  intro c hc
  rw [csvRow] at hc
  rcases List.mem_append.mp hc with hm | hm
  · exact (h1 c hm).2
  rcases List.mem_cons.mp hm with rfl | hm
  · decide
  rcases List.mem_append.mp hm with hm | hm
  · exact (h2 c hm).2
  rcases List.mem_cons.mp hm with rfl | hm
  · decide
  rcases List.mem_append.mp hm with hm | hm
  · exact (h3 c hm).2
  rcases List.mem_cons.mp hm with rfl | hm
  · decide
  rcases List.mem_append.mp hm with hm | hm
  · exact (format2f_sep_free r.latency c hm).2
  rcases List.mem_cons.mp hm with rfl | hm
  · decide
  · exact (h4 c hm).2

/-- Parsing the data rows of an exported clean result list recovers
the list. -/
theorem parse_rows_clean (results : List ProxyResult)
    (h : ∀ r ∈ results, cleanFields r) :
    ((splitOnChar '\n'
        (results.foldr (fun r acc => csvRow r ++ '\n' :: acc) [])).filter
      (fun l => decide (l ≠ []))).mapM parseCsvRow = some results := by
  induction results with
  | nil => rfl
  | cons r rs ih =>
      have hr : cleanFields r := h r (by simp)
      have hrs : ∀ x ∈ rs, cleanFields x := fun x hx => h x (by simp [hx])
      show ((splitOnChar '\n' (csvRow r ++ '\n' ::
        (rs.foldr (fun r acc => csvRow r ++ '\n' :: acc) []))).filter
          (fun l => decide (l ≠ []))).mapM parseCsvRow = _
      rw [splitOnChar_append_cons '\n' _ _ (csvRow_no_newline r hr)]
      rw [List.filter_cons_of_pos (by simpa using csvRow_ne_nil r)]
      rw [List.mapM_cons, parseCsvRow_csvRow r hr, ih hrs]
      rfl

/-- C9 counterexample: CSV export and re-parse is **not** an exact
round-trip.  A result with latency `1/3` ms is written as `0.33` by
the `:.2f` formatting, and parsing the CSV back yields latency
`33/100 ≠ 1/3`; the re-read collection differs from the original. -/
theorem export_csv_roundtrip_counterexample :
    parseCsv (export_csv
        [⟨"1.2.3.4:80", "http", "success", 1 / 3, ""⟩]) =
      some [⟨"1.2.3.4:80", "http", "success", 33 / 100, ""⟩] ∧
    (⟨"1.2.3.4:80", "http", "success", (33 : ℚ) / 100, ""⟩ : ProxyResult) ≠
      ⟨"1.2.3.4:80", "http", "success", 1 / 3, ""⟩ := by
  constructor <;> with_unfolding_all decide

/-- C9 amended: exporting to CSV and parsing back round-trips the row
count and every field exactly, **provided** no string field contains a
comma or newline and every latency is a nonnegative value exactly
representable with two decimals; in general the latency field comes
back as its two-decimal rounding. -/
theorem export_csv_roundtrip_clean (results : List ProxyResult)
    (h : ∀ r ∈ results, cleanFields r) :
    parseCsv (export_csv results) = some results := by
  show (match splitOnChar '\n' (export_csv results).data with
    | [] => none
    | _ :: rows =>
        (rows.filter (fun l => decide (l ≠ []))).mapM parseCsvRow) = _
  rw [show (export_csv results).data = csvHeader ++ '\n' ::
    (results.foldr (fun r acc => csvRow r ++ '\n' :: acc) []) from rfl]
  rw [splitOnChar_append_cons '\n' _ _ (by decide)]
  exact parse_rows_clean results h

/-- Witness for C9 amended at a concrete clean collection. -/
theorem export_csv_roundtrip_clean_witness :
    (∀ r ∈ ([⟨"1.2.3.4:80", "http", "success", 2000, ""⟩,
        ⟨"u:p@5.6.7.8:1080", "socks5", "failed", 0, "HTTP 404"⟩] :
        List ProxyResult), cleanFields r) ∧
    parseCsv (export_csv
        [⟨"1.2.3.4:80", "http", "success", 2000, ""⟩,
         ⟨"u:p@5.6.7.8:1080", "socks5", "failed", 0, "HTTP 404"⟩]) =
      some [⟨"1.2.3.4:80", "http", "success", 2000, ""⟩,
        ⟨"u:p@5.6.7.8:1080", "socks5", "failed", 0, "HTTP 404"⟩] := by
  have hclean :
      ∀ r ∈ ([⟨"1.2.3.4:80", "http", "success", 2000, ""⟩,
        ⟨"u:p@5.6.7.8:1080", "socks5", "failed", 0, "HTTP 404"⟩] :
        List ProxyResult), cleanFields r := by
    intro r hr
    simp only [List.mem_cons, List.not_mem_nil, or_false] at hr
    rcases hr with rfl | rfl <;>
      (unfold cleanFields; with_unfolding_all decide)
  exact ⟨hclean, export_csv_roundtrip_clean _ hclean⟩

end ProxyCk
